import Mathlib

/-!
Verification of the RqstRush HTTP load generator (Go, two variants:
`main.go`, the simple variant, and a rate-limited variant adding a
`jobQueue` channel and per-request retry).  Each Go function the claims
touch is shallowly embedded below as an executable Lean definition:
machine integers become `Nat`/`Int` with explicit wrap-around where it
matters, fallible I/O becomes explicit oracle fields, goroutine loops
become step functions iterated by an explicit scheduler, and the
side-effect sequence of `RestartWorkers` becomes an event trace.
-/

namespace RqstRush

/-- Go `Config` struct (both variants): `TargetURL string`, `Concurrency int`.
Go `int` is modelled as `Int` (the JSON decoder accepts any integer,
including zero and negatives). -/
structure Config where
  targetURL : String
  concurrency : Int
  deriving Repr, DecidableEq

/-- The mutable state `LoadConfig` owns: the global `config` (guarded by
`configLock`) and the global `lastModTime`.  The modification marker
`time.Time` is modelled as `Nat`; the zero value of `time.Time` is `0`. -/
structure StoreState where
  config : Config
  lastModTime : Nat
  deriving Repr, DecidableEq

/-- Outcome of the external I/O `LoadConfig` performs on `config.json`,
modelled as oracles: `statResult` is `os.Stat`'s result (`none` = error,
`some mt` = success with modification time `mt`), `openOk` whether
`os.Open` succeeds, and `decodeResult` the JSON decoder's outcome on the
file's content (`none` = parse error).  JSON decoding itself is an
external collaborator, so only its outcome is modelled. -/
structure SourceState where
  statResult : Option Nat
  openOk : Bool
  decodeResult : Option Config
  deriving Repr, DecidableEq

/-- `LoadConfig` (identical in both variants): stat the file (on error log
and return false); if the mod time equals `lastModTime` return false; open
the file (on error log and return false); decode (on error log and return
false); otherwise store the new config under the write lock, update
`lastModTime`, and return true. -/
def LoadConfig (src : SourceState) (s : StoreState) : StoreState × Bool :=
  match src.statResult with
  | none => (s, false)
  | some mt =>
    if mt = s.lastModTime then (s, false)
    else if src.openOk then
      match src.decodeResult with
      | none => (s, false)
      | some newConfig => ({ config := newConfig, lastModTime := mt }, true)
    else (s, false)

/-- `n` successive calls of `LoadConfig` against the same source outcome,
threading the store state; returns the final state and the list of the
calls' boolean results. -/
def loadConfigRepeat (src : SourceState) : Nat → StoreState → StoreState × List Bool
  | 0, s => (s, [])
  | n + 1, s =>
    let r := LoadConfig src s
    let rest := loadConfigRepeat src n r.1
    (rest.1, r.2 :: rest.2)

/-- `reqCounter` is a Go `uint64`: arithmetic on it wraps modulo `2 ^ 64`. -/
def uint64Mod : Nat := 2 ^ 64

/-- The two atomic operations the program performs on `reqCounter`:
`atomic.AddUint64(&reqCounter, 1)` in `worker` and
`atomic.SwapUint64(&reqCounter, 0)` in `LogStats`.  Each is a single
indivisible operation, so a concurrent history is a sequence of them. -/
inductive CtrOp
  | incr
  | swap
  deriving Repr, DecidableEq

/-- Run a sequence of atomic counter operations from counter value `c`:
returns the final counter value and the list of values the swaps read.
`incr` adds 1 modulo `2 ^ 64`; `swap` reads the current value and stores 0. -/
def runCounterOps : List CtrOp → Nat → Nat × List Nat
  | [], c => (c, [])
  | CtrOp.incr :: rest, c => runCounterOps rest ((c + 1) % uint64Mod)
  | CtrOp.swap :: rest, c =>
    let r := runCounterOps rest 0
    (r.1, c :: r.2)

/-- Outcome of one `client.Do(req)` call in the rate-limited variant's
worker: a transport error (`err != nil`), or a response carrying an HTTP
status code (`err == nil`; the code never inspects the status). -/
inductive DoResult
  | transportErr
  | ok (status : Nat)
  deriving Repr, DecidableEq

/-- Observable effects of the rate-limited worker's retry loop on one
logical request: how many attempts (`client.Do` calls) it made, how often
it incremented `reqCounter`, how many response bodies it closed, and the
backoff sleeps it performed, in milliseconds. -/
structure RetryTrace where
  attempts : Nat
  increments : Nat
  bodiesClosed : Nat
  sleepsMs : List Nat
  deriving Repr, DecidableEq

/-- `maxRetries := 3` in the rate-limited variant's worker. -/
def maxRetries : Nat := 3

/-- `rand.Intn(n)`: the pseudo-random source is modelled as a stream
`rng : Nat → Nat` of draws; draw `k` reduced into `[0, n)`. -/
def randIntn (rng : Nat → Nat) (k n : Nat) : Nat := rng k % n

/-- The body of `for i := 0; i < maxRetries; i++ { ... }` in the
rate-limited worker, recursing on the remaining iteration budget `fuel`
with `i` the current attempt index: call `client.Do` (outcome
`doAttempt i`); if it succeeded, close the body, increment the counter
and break; otherwise log and sleep `rand.Intn(100)` milliseconds, then
iterate. -/
def retryFrom (doAttempt : Nat → DoResult) (rng : Nat → Nat) : Nat → Nat → RetryTrace
  | 0, _ => { attempts := 0, increments := 0, bodiesClosed := 0, sleepsMs := [] }
  | fuel + 1, i =>
    match doAttempt i with
    | DoResult.ok _ => { attempts := 1, increments := 1, bodiesClosed := 1, sleepsMs := [] }
    | DoResult.transportErr =>
      let rest := retryFrom doAttempt rng fuel (i + 1)
      { attempts := rest.attempts + 1
        increments := rest.increments
        bodiesClosed := rest.bodiesClosed
        sleepsMs := randIntn rng i 100 :: rest.sleepsMs }

/-- The whole retry loop for one logical request (attempt indices start
at 0, budget `maxRetries`). -/
def processRequest (doAttempt : Nat → DoResult) (rng : Nat → Nat) : RetryTrace :=
  retryFrom doAttempt rng maxRetries 0

/-- Result of running one worker-loop step: the loop either continues with
a new scheduler-visible state or the goroutine returns (runs `wg.Done()`). -/
inductive StepResult (σ : Type)
  | running (s : σ)
  | exited
  deriving Repr

/-- Iterate a worker step function `n` times from state `s`: `some s'`
means the goroutine is still in its loop with state `s'`, `none` means it
has exited. -/
def iterateWorker {σ : Type} (f : σ → StepResult σ) : Nat → σ → Option σ
  | 0, s => some s
  | n + 1, s =>
    match f s with
    | StepResult.exited => none
    | StepResult.running s' => iterateWorker f n s'

/-- Per-iteration I/O oracles for the simple variant's worker:
whether `http.NewRequest` succeeds at iteration `k` and whether
`client.Do` succeeds at iteration `k`. -/
structure SimpleWorkerEnv where
  newRequestOk : Nat → Bool
  doOk : Nat → Bool

/-- One iteration of the simple variant's worker loop (`main.go`,
`for { ... }`): read the URL under the read lock; `http.NewRequest` — on
error log and `continue`; `client.Do` — on error log and `continue`; else
close the body, increment `reqCounter`, and fall through to the next
iteration.  Every branch of the body continues the loop: the loop has no
`break` and no `return`, so no branch yields `StepResult.exited`.  The
scheduler-visible state is the iteration index. -/
def simpleWorkerStep (env : SimpleWorkerEnv) (k : Nat) : StepResult Nat :=
  if env.newRequestOk k then
    if env.doOk k then
      StepResult.running (k + 1)
    else
      StepResult.running (k + 1)
  else
    StepResult.running (k + 1)

/-- `workerWg.Wait()` in the simple variant returns for a given worker only
if that worker's goroutine eventually exits its loop. -/
def simpleJoinCompletes (env : SimpleWorkerEnv) (k : Nat) : Prop :=
  ∃ n, iterateWorker (simpleWorkerStep env) n k = none

/-- One step of the rate-limited variant's worker once `close(jobQueue)`
has been executed: its state is the list of jobs still buffered in the
closed channel.  `for range jobQueue` receives the next buffered job and
runs the body (which always terminates: request construction, at most
`maxRetries` bounded attempts, bounded sleeps), or exits the loop when the
closed channel is empty — which runs the deferred `wg.Done()`. -/
def rlWorkerStep (jobs : List Unit) : StepResult (List Unit) :=
  match jobs with
  | [] => StepResult.exited
  | _ :: rest => StepResult.running rest

/-- One step of the producer goroutine the rate-limited `RestartWorkers`
spawns: `for { jobQueue <- struct{}{} } `.  Sending on an open channel
(possibly after blocking) succeeds and the loop continues; sending on a
closed channel panics, which in Go crashes the whole process.  The loop
contains no other way to stop. -/
inductive ProducerOutcome
  | sent
  | panicked
  deriving Repr, DecidableEq

/-- The producer's loop body, as a function of whether the channel it is
sending on has been closed. -/
def producerStep (queueClosed : Bool) : ProducerOutcome :=
  if queueClosed then ProducerOutcome.panicked else ProducerOutcome.sent

/-- Synchronization and lifecycle actions `RestartWorkers` performs, in
program order: `close(jobQueue)`; one `joinWorker` per goroutine
`workerWg.Wait()` waits out; construction of the fresh `http.Client`;
one `spawnWorker` per `go worker(client, &workerWg)`; `go func() { ... }`
for the producer.  `stopProducer` is the vocabulary for stopping or
joining the producer goroutine — the claims ask whether it ever occurs. -/
inductive PoolEvent
  | closeQueue
  | joinWorker
  | stopProducer
  | newClient
  | spawnWorker
  | spawnProducer
  deriving Repr, DecidableEq

/-- Pool state of the rate-limited variant: whether `workersActive` is
set, how many worker goroutines of the active generation are registered in
`workerWg`, and an identifier for the `http.Client` those workers hold
(bumped each time a restart constructs a fresh client). -/
structure RLPoolState where
  workersActive : Bool
  genWorkers : Nat
  clientId : Nat
  deriving Repr, DecidableEq

/-- What one call of the rate-limited `RestartWorkers` does: whether it
panicked partway (Go's `make(chan struct{}, n)` panics at runtime for
`n < 0`), the pool state when it returned (or at the panic point), and its
event trace. -/
structure RLRestartResult where
  panicked : Bool
  state : RLPoolState
  events : List PoolEvent
  deriving Repr, DecidableEq

/-- The stop phase of `RestartWorkers` (rate-limited variant):
`if workersActive { close(jobQueue); workerWg.Wait() }`. -/
def stopPhase (s : RLPoolState) : List PoolEvent :=
  if s.workersActive then
    PoolEvent.closeQueue :: List.replicate s.genWorkers PoolEvent.joinWorker
  else []

/-- The rate-limited `RestartWorkers`, with `c` the current
`config.Concurrency`: run the stop phase; build the fresh client;
reset `workerWg`; set `workersActive := true`;
`jobQueue = make(chan struct{}, c)` — which panics for `c < 0`, so nothing
after it runs; spawn one worker per loop iteration of
`for i := 0; i < c; i++` (that is, `c.toNat` workers); finally spawn the
producer goroutine.  No event stops the previous producer: the function
never signals, joins, or waits for it. -/
def RestartWorkers_rl (s : RLPoolState) (c : Int) : RLRestartResult :=
  if c < 0 then
    { panicked := true
      state := { workersActive := true, genWorkers := 0, clientId := s.clientId + 1 }
      events := stopPhase s ++ [PoolEvent.newClient] }
  else
    { panicked := false
      state := { workersActive := true, genWorkers := c.toNat, clientId := s.clientId + 1 }
      events := stopPhase s ++
        (PoolEvent.newClient ::
          (List.replicate c.toNat PoolEvent.spawnWorker ++ [PoolEvent.spawnProducer])) }

/-- Pool state of the simple variant (`main.go`): no job queue exists. -/
structure SimplePoolState where
  workersActive : Bool
  genWorkers : Nat
  clientId : Nat
  deriving Repr, DecidableEq

/-- The simple variant's `RestartWorkers`: `if workersActive {
workerWg.Wait() }` — with no preceding stop signal of any kind — then
build a fresh client, set `workersActive := true`, and spawn one worker
per iteration of `for i := 0; i < c; i++`.  Returns the state the code
would reach if the wait returned, and the event trace. -/
def RestartWorkers_simple (s : SimplePoolState) (c : Int) : SimplePoolState × List PoolEvent :=
  ( { workersActive := true, genWorkers := c.toNat, clientId := s.clientId + 1 }
  , (if s.workersActive then List.replicate s.genWorkers PoolEvent.joinWorker else []) ++
      (PoolEvent.newClient :: List.replicate c.toNat PoolEvent.spawnWorker) )

/-- `time.NewTicker(1 * time.Second)` in `LogStats`: the reporting
interval, in seconds. -/
def statsInterval : Nat := 1

/-- The hardcoded milestone threshold `100000` in `LogStats`. -/
def milestoneThreshold : Nat := 100000

/-- The state `LogStats` keeps across ticks: `startTime`, the wall-clock
instant (modelled as `Nat`) the milestone clock last started. -/
structure StatsState where
  startTime : Nat
  deriving Repr, DecidableEq

/-- Observable outcome of one `LogStats` tick. -/
structure StatsTick where
  state : StatsState
  counter : Nat
  loggedCount : Nat
  milestoneLog : Option Nat
  deriving Repr, DecidableEq

/-- One tick of `LogStats` (identical in both variants) at wall-clock
`now` with `reqCounter = counterVal`:
`count := atomic.SwapUint64(&reqCounter, 0)` (so the counter is 0
afterwards); `elapsed := time.Since(startTime)`; log `count`; if
`count >= 100000`, log `elapsed` and set `startTime = time.Now()`. -/
def logStatsTick (now counterVal : Nat) (s : StatsState) : StatsTick :=
  let count := counterVal
  let elapsed := now - s.startTime
  if count ≥ milestoneThreshold then
    { state := { startTime := now }, counter := 0, loggedCount := count
      milestoneLog := some elapsed }
  else
    { state := s, counter := 0, loggedCount := count, milestoneLog := none }

/-- A run of `LogStats` over a list of ticks, each tick given as
`(now, drained counter value)`: returns the per-tick logs
`(logged count, optional milestone elapsed)` and the final state. -/
def logStatsRun (s : StatsState) : List (Nat × Nat) → List (Nat × Option Nat) × StatsState
  | [] => ([], s)
  | (now, c) :: rest =>
    let t := logStatsTick now c s
    let r := logStatsRun t.state rest
    ((t.loggedCount, t.milestoneLog) :: r.1, r.2)

/-! Helper lemmas shared by the claim theorems. -/

/-- A call with an unchanged modification marker returns `false` and keeps
the store state. -/
lemma loadConfig_marker_unchanged (src : SourceState) (s : StoreState)
    (h : src.statResult = some s.lastModTime) : LoadConfig src s = (s, false) := by
  simp [LoadConfig, h]

/-- Counting an element in a replicated list. -/
lemma count_replicate_poolEvent (a b : PoolEvent) (n : Nat) :
    (List.replicate n a).count b = if a = b then n else 0 := by
  simp [List.count_replicate]

/-- A run of `j` atomic increments from a counter value below `2 ^ 64`
lands at `(c + j) % 2 ^ 64` and continues with the remaining operations. -/
lemma runCounterOps_replicate_incr (j : Nat) :
    ∀ (c : Nat), c < uint64Mod → ∀ rest : List CtrOp,
      runCounterOps (List.replicate j CtrOp.incr ++ rest) c =
        runCounterOps rest ((c + j) % uint64Mod) := by
  induction j with
  | zero =>
    intro c hc rest
    simp [Nat.mod_eq_of_lt hc]
  | succ j ih =>
    intro c hc rest
    rw [List.replicate_succ, List.cons_append]
    show runCounterOps (List.replicate j CtrOp.incr ++ rest) ((c + 1) % uint64Mod) = _
    rw [ih ((c + 1) % uint64Mod) (Nat.mod_lt _ (by decide)) rest]
    rw [Nat.mod_add_mod]
    congr 2
    omega

/-- A rate-limited worker whose (closed) queue still buffers `jobs` items
exits after draining them: one loop step per job, then the range loop ends. -/
lemma rlWorker_exits_after_drain (jobs : List Unit) :
    iterateWorker rlWorkerStep (jobs.length + 1) jobs = none := by
  induction jobs with
  | nil => rfl
  | cons u rest ih =>
    show iterateWorker rlWorkerStep (rest.length + 1) rest = none
    exact ih

/-- Each step of the simple variant's worker continues the loop with the
next iteration index, whatever the request oracles answer. -/
lemma simpleWorkerStep_running (env : SimpleWorkerEnv) (k : Nat) :
    simpleWorkerStep env k = StepResult.running (k + 1) := by
  unfold simpleWorkerStep
  split <;> [skip; rfl]
  split <;> rfl

/-- Iterating the simple variant's worker any number of steps leaves it
running, at iteration index `k + n`. -/
lemma simpleWorker_runs_forever (env : SimpleWorkerEnv) :
    ∀ (n k : Nat), iterateWorker (simpleWorkerStep env) n k = some (k + n) := by
  intro n
  induction n with
  | zero => intro k; rfl
  | succ n ih =>
    intro k
    rw [iterateWorker, simpleWorkerStep_running env k]
    show iterateWorker (simpleWorkerStep env) n (k + 1) = _
    rw [ih (k + 1)]
    congr 1
    omega

/-! The claims. -/

/-- C3: for every reload in which the configuration source is unreadable
(stat or open fails), or in which the modification marker changed but the
content fails to parse, `LoadConfig` returns `false` and leaves both the
stored configuration and the modification marker exactly as they were. -/
theorem load_failure_keeps_state (src : SourceState) (s : StoreState)
    (h : src.statResult = none ∨ src.openOk = false ∨
      ∃ mt, src.statResult = some mt ∧ mt ≠ s.lastModTime ∧ src.decodeResult = none) :
    LoadConfig src s = (s, false) := by
  rcases h with h | h | ⟨mt, h1, h2, h3⟩
  · simp [LoadConfig, h]
  · cases hstat : src.statResult with
    | none => simp [LoadConfig, hstat]
    | some mt =>
      by_cases hmt : mt = s.lastModTime
      · simp [LoadConfig, hstat, hmt]
      · simp [LoadConfig, hstat, hmt, h]
  · simp [LoadConfig, h1, h2, h3]

/-- C3 witness: an unreadable source leaves a concrete store untouched. -/
theorem load_failure_keeps_state_witness :
    LoadConfig ⟨none, false, none⟩ ⟨⟨"http://a", 2⟩, 5⟩ = (⟨⟨"http://a", 2⟩, 5⟩, false) :=
  load_failure_keeps_state ⟨none, false, none⟩ ⟨⟨"http://a", 2⟩, 5⟩ (Or.inl rfl)

/-- C4: `LoadConfig` returns `true` iff the source's modification marker
differs from the recorded one and the content is readable and parses; in
that case it replaces the whole stored configuration and updates the
marker; and any number of calls with an unchanged marker return `false`
and never mutate the store. -/
theorem load_true_iff_marker_changed_and_parses :
    (∀ (src : SourceState) (s : StoreState),
      (LoadConfig src s).2 = true ↔
        (∃ mt, src.statResult = some mt ∧ mt ≠ s.lastModTime) ∧
          src.openOk = true ∧ ∃ c, src.decodeResult = some c)
    ∧ (∀ (src : SourceState) (s : StoreState) (mt : Nat) (cfg : Config),
        src.statResult = some mt → mt ≠ s.lastModTime → src.openOk = true →
          src.decodeResult = some cfg →
          LoadConfig src s = ({ config := cfg, lastModTime := mt }, true))
    ∧ (∀ (src : SourceState) (s : StoreState) (n : Nat),
        src.statResult = some s.lastModTime →
          loadConfigRepeat src n s = (s, List.replicate n false)) := by
  refine ⟨fun src s => ?_, fun src s mt cfg h1 h2 h3 h4 => ?_, fun src s n h => ?_⟩
  · cases hstat : src.statResult with
    | none => simp [LoadConfig, hstat]
    | some mt =>
      by_cases hmt : mt = s.lastModTime
      · subst hmt
        simp [LoadConfig, hstat]
      · cases hopen : src.openOk with
        | false => simp [LoadConfig, hstat, hmt, hopen]
        | true =>
          cases hdec : src.decodeResult with
          | none => simp [LoadConfig, hstat, hmt, hopen, hdec]
          | some c => simp [LoadConfig, hstat, hmt, hopen, hdec]
  · simp [LoadConfig, h1, h2, h3, h4]
  · induction n with
    | zero => rfl
    | succ n ih =>
      simp [loadConfigRepeat, loadConfig_marker_unchanged src s h, ih,
        List.replicate_succ]

/-- C9: `LoadConfig` installs any configuration whose JSON decodes — with
no validation of `concurrency > 0` or of `target_url` — and a restart
under `concurrency ≤ 0` spawns zero workers (the spawn loop runs zero
times) while still setting `workersActive` to `true`, in both variants. -/
theorem no_validation_and_zero_workers :
    (∀ (src : SourceState) (s : StoreState) (mt : Nat) (cfg : Config),
        src.statResult = some mt → mt ≠ s.lastModTime → src.openOk = true →
          src.decodeResult = some cfg →
          (LoadConfig src s).1.config = cfg ∧ (LoadConfig src s).2 = true)
    ∧ (∀ (s : SimplePoolState) (c : Int), c ≤ 0 →
        (RestartWorkers_simple s c).1.genWorkers = 0 ∧
          (RestartWorkers_simple s c).1.workersActive = true ∧
          (RestartWorkers_simple s c).2.count PoolEvent.spawnWorker = 0)
    ∧ (∀ (s : RLPoolState) (c : Int), c ≤ 0 →
        (RestartWorkers_rl s c).state.workersActive = true ∧
          (RestartWorkers_rl s c).events.count PoolEvent.spawnWorker = 0) := by
  refine ⟨fun src s mt cfg h1 h2 h3 h4 => ?_, fun s c hc => ?_, fun s c hc => ?_⟩
  · simp [LoadConfig, h1, h2, h3, h4]
  · cases hw : s.workersActive <;>
      simp [RestartWorkers_simple, Int.toNat_of_nonpos hc, hw,
        List.count_append, List.count_cons, count_replicate_poolEvent]
  · rcases hc.lt_or_eq with hlt | heq
    · cases hw : s.workersActive <;>
        simp [RestartWorkers_rl, hlt, stopPhase, hw,
          List.count_append, List.count_cons, count_replicate_poolEvent]
    · subst heq
      cases hw : s.workersActive <;>
        simp [RestartWorkers_rl, stopPhase, hw,
          List.count_append, List.count_cons, count_replicate_poolEvent]

/-- C5: when all three attempts of a logical request fail with transport
errors, the worker makes exactly 3 attempts, sleeps a flat-jitter
duration drawn by `rand.Intn(100)` (hence in `[0, 100)` milliseconds)
after each of the three failed attempts, closes no body, and abandons the
request without incrementing `reqCounter`. -/
theorem retry_exhaustion_three_attempts (doAttempt : Nat → DoResult) (rng : Nat → Nat)
    (h0 : doAttempt 0 = DoResult.transportErr)
    (h1 : doAttempt 1 = DoResult.transportErr)
    (h2 : doAttempt 2 = DoResult.transportErr) :
    (processRequest doAttempt rng).attempts = 3 ∧
      (processRequest doAttempt rng).increments = 0 ∧
      (processRequest doAttempt rng).bodiesClosed = 0 ∧
      (processRequest doAttempt rng).sleepsMs =
        [rng 0 % 100, rng 1 % 100, rng 2 % 100] ∧
      ∀ d ∈ (processRequest doAttempt rng).sleepsMs, d < 100 := by
  have hp : processRequest doAttempt rng =
      { attempts := 3, increments := 0, bodiesClosed := 0
        sleepsMs := [rng 0 % 100, rng 1 % 100, rng 2 % 100] } := by
    simp [processRequest, maxRetries, retryFrom, h0, h1, h2, randIntn]
  refine ⟨by rw [hp], by rw [hp], by rw [hp], by rw [hp], ?_⟩
  rw [hp]
  intro d hd
  simp only [List.mem_cons, List.not_mem_nil, or_false] at hd
  rcases hd with h | h | h <;> (subst h; exact Nat.mod_lt _ (by decide))

/-- C5 witness: a target that always fails, with a concrete random
stream. -/
theorem retry_exhaustion_three_attempts_witness :
    (processRequest (fun _ => DoResult.transportErr) (fun k => 7 * k)).attempts = 3 ∧
      (processRequest (fun _ => DoResult.transportErr) (fun k => 7 * k)).increments = 0 ∧
      (processRequest (fun _ => DoResult.transportErr) (fun k => 7 * k)).bodiesClosed = 0 ∧
      (processRequest (fun _ => DoResult.transportErr) (fun k => 7 * k)).sleepsMs =
        [7 * 0 % 100, 7 * 1 % 100, 7 * 2 % 100] ∧
      ∀ d ∈ (processRequest (fun _ => DoResult.transportErr) (fun k => 7 * k)).sleepsMs,
        d < 100 :=
  retry_exhaustion_three_attempts (fun _ => DoResult.transportErr) (fun k => 7 * k)
    rfl rfl rfl

/-- C6: whenever attempt `j` (the first `j` attempts having failed,
`j < 3`) completes without a transport error — whatever HTTP status the
response carries — the worker closes the response body, increments
`reqCounter` by exactly 1, makes no further attempts, and has slept once
per preceding failure. -/
theorem attempt_success_stops_retrying (doAttempt : Nat → DoResult) (rng : Nat → Nat)
    (j status : Nat) (hj : j < maxRetries)
    (hfail : ∀ i, i < j → doAttempt i = DoResult.transportErr)
    (hok : doAttempt j = DoResult.ok status) :
    processRequest doAttempt rng =
      { attempts := j + 1, increments := 1, bodiesClosed := 1
        sleepsMs := (List.range j).map fun i => rng i % 100 } := by
  have hj' : j = 0 ∨ j = 1 ∨ j = 2 := by
    simp [maxRetries] at hj
    omega
  rcases hj' with h | h | h <;> subst h
  · simp [processRequest, maxRetries, retryFrom, hok]
  · have h0 := hfail 0 (by decide)
    simp [processRequest, maxRetries, retryFrom, h0, hok, randIntn, List.range_succ]
  · have h0 := hfail 0 (by decide)
    have h1 := hfail 1 (by decide)
    simp [processRequest, maxRetries, retryFrom, h0, h1, hok, randIntn, List.range_succ]

/-- C6 witness: the first attempt fails, the second returns HTTP 503; the
request ends after 2 attempts with one increment, one closed body, one
sleep. -/
theorem attempt_success_stops_retrying_witness :
    processRequest (fun i => if i = 0 then DoResult.transportErr else DoResult.ok 503)
        (fun _ => 42) =
      { attempts := 2, increments := 1, bodiesClosed := 1, sleepsMs := [42] } := by
  have h := attempt_success_stops_retrying
    (fun i => if i = 0 then DoResult.transportErr else DoResult.ok 503)
    (fun _ => 42) 1 503 (by decide)
    (fun i hi => by
      have : i = 0 := by omega
      subst this
      rfl)
    rfl
  simpa using h

/-- C7: the `reqCounter` read-and-clear is a single indivisible operation:
in any atomic history of `j` increments, then one swap, then `k` further
increments (`j + k = N` increments in total, each below the `uint64`
wrap-around), the swap returns exactly `j` and stores 0, the final counter
value is exactly `k`, and in particular `N` increments followed by a reset
report exactly `N` and leave the counter at 0 — nothing is lost or
double-counted across the reset boundary. -/
theorem counter_swap_read_and_clear_exact (j k : Nat)
    (hj : j < uint64Mod) (hk : k < uint64Mod) :
    runCounterOps (List.replicate j CtrOp.incr ++ [CtrOp.swap]) 0 = (0, [j]) ∧
      runCounterOps
        (List.replicate j CtrOp.incr ++ CtrOp.swap :: List.replicate k CtrOp.incr) 0 =
        (k, [j]) := by
  have hrep : ∀ (m : Nat), m < uint64Mod →
      runCounterOps (List.replicate m CtrOp.incr) 0 = (m, []) := by
    intro m hm
    have := runCounterOps_replicate_incr m 0 (by decide) []
    rw [List.append_nil] at this
    simpa [runCounterOps, Nat.mod_eq_of_lt hm] using this
  constructor
  · rw [runCounterOps_replicate_incr j 0 (by decide) [CtrOp.swap]]
    simp [runCounterOps, Nat.mod_eq_of_lt hj]
  · rw [runCounterOps_replicate_incr j 0 (by decide)
      (CtrOp.swap :: List.replicate k CtrOp.incr)]
    simp [runCounterOps, Nat.mod_eq_of_lt hj, hrep k hk]

/-- C7 witness: 5 increments, a swap, then 3 more increments — the swap
reads exactly 5, the counter ends at exactly 3. -/
theorem counter_swap_read_and_clear_exact_witness :
    runCounterOps (List.replicate 5 CtrOp.incr ++ [CtrOp.swap]) 0 = (0, [5]) ∧
      runCounterOps
        (List.replicate 5 CtrOp.incr ++ CtrOp.swap :: List.replicate 3 CtrOp.incr) 0 =
        (3, [5]) :=
  counter_swap_read_and_clear_exact 5 3 (by decide) (by decide)

/-- C8: each 1-second tick of `LogStats` reads and resets `reqCounter` to
zero and logs the count; exactly when the drained count reaches the fixed
threshold `100000` it also logs the wall-clock time elapsed since the
milestone clock last started and restarts that clock; otherwise the
milestone clock is untouched and nothing extra is logged.  Over a whole
run, every tick's drained count is logged. -/
theorem stats_tick_resets_and_milestones :
    statsInterval = 1
    ∧ milestoneThreshold = 100000
    ∧ (∀ (now c : Nat) (s : StatsState), (logStatsTick now c s).counter = 0)
    ∧ (∀ (now c : Nat) (s : StatsState), (logStatsTick now c s).loggedCount = c)
    ∧ (∀ (now c : Nat) (s : StatsState),
        (logStatsTick now c s).milestoneLog =
          if milestoneThreshold ≤ c then some (now - s.startTime) else none)
    ∧ (∀ (now c : Nat) (s : StatsState),
        (logStatsTick now c s).state.startTime =
          if milestoneThreshold ≤ c then now else s.startTime)
    ∧ (∀ (s : StatsState) (ticks : List (Nat × Nat)),
        (logStatsRun s ticks).1.map Prod.fst = ticks.map Prod.snd) := by
  refine ⟨rfl, rfl, fun now c s => ?_, fun now c s => ?_, fun now c s => ?_,
    fun now c s => ?_, fun s ticks => ?_⟩
  · by_cases hth : milestoneThreshold ≤ c <;> simp [logStatsTick, hth]
  · by_cases hth : milestoneThreshold ≤ c <;> simp [logStatsTick, hth]
  · by_cases hth : milestoneThreshold ≤ c <;> simp [logStatsTick, hth]
  · by_cases hth : milestoneThreshold ≤ c <;> simp [logStatsTick, hth]
  · induction ticks generalizing s with
    | nil => rfl
    | cons t rest ih =>
      obtain ⟨now, c⟩ := t
      have hlog : (logStatsTick now c s).loggedCount = c := by
        by_cases hth : milestoneThreshold ≤ c <;> simp [logStatsTick, hth]
      simp [logStatsRun, hlog, ih]

/-- C1: in the rate-limited variant, a restart while a generation of
`w` workers is active first signals them to stop (`close(jobQueue)`,
first event) and joins all `w` of them — and every signalled worker does
exit once it drains its closed queue, so the join is a full drain —
strictly before any worker of the new generation is spawned; it then
spawns exactly `N` workers bound to the freshly built client, leaves
exactly `N` workers active, and the next restart joins exactly `N`. -/
theorem restart_drains_then_spawns (s : RLPoolState) (N : Int)
    (hA : s.workersActive = true) (hN : 0 < N) :
    (RestartWorkers_rl s N).panicked = false
    ∧ (∃ pre post, (RestartWorkers_rl s N).events = pre ++ post
        ∧ pre.count PoolEvent.closeQueue = 1
        ∧ pre.count PoolEvent.joinWorker = s.genWorkers
        ∧ pre.count PoolEvent.spawnWorker = 0
        ∧ post.count PoolEvent.spawnWorker = N.toNat
        ∧ post.count PoolEvent.joinWorker = 0)
    ∧ (N.toNat : Int) = N
    ∧ (∀ jobs : List Unit, iterateWorker rlWorkerStep (jobs.length + 1) jobs = none)
    ∧ (RestartWorkers_rl s N).state.workersActive = true
    ∧ (RestartWorkers_rl s N).state.genWorkers = N.toNat
    ∧ (RestartWorkers_rl s N).state.clientId = s.clientId + 1
    ∧ ∀ M : Int,
        (RestartWorkers_rl (RestartWorkers_rl s N).state M).events.count
          PoolEvent.joinWorker = N.toNat := by
  have hneg : ¬N < 0 := by omega
  refine ⟨by simp [RestartWorkers_rl, hneg], ?_, Int.toNat_of_nonneg hN.le,
    rlWorker_exits_after_drain, by simp [RestartWorkers_rl, hneg],
    by simp [RestartWorkers_rl, hneg], by simp [RestartWorkers_rl, hneg], ?_⟩
  · refine ⟨PoolEvent.closeQueue :: List.replicate s.genWorkers PoolEvent.joinWorker,
      PoolEvent.newClient ::
        (List.replicate N.toNat PoolEvent.spawnWorker ++ [PoolEvent.spawnProducer]),
      ?_, ?_, ?_, ?_, ?_, ?_⟩
    · simp [RestartWorkers_rl, hneg, stopPhase, hA]
    · simp [List.count_cons, count_replicate_poolEvent]
    · simp [List.count_cons, count_replicate_poolEvent]
    · simp [List.count_cons, count_replicate_poolEvent]
    · simp [List.count_cons, List.count_append, count_replicate_poolEvent]
    · simp [List.count_cons, List.count_append, count_replicate_poolEvent]
  · intro M
    by_cases hM : M < 0 <;>
      simp [RestartWorkers_rl, hneg, hM, stopPhase, List.count_cons,
        List.count_append, count_replicate_poolEvent]

/-- C1 witness: a concrete restart — 2 workers active, new concurrency 3. -/
theorem restart_drains_then_spawns_witness :
    (RestartWorkers_rl ⟨true, 2, 0⟩ 3).panicked = false
    ∧ (∃ pre post, (RestartWorkers_rl ⟨true, 2, 0⟩ 3).events = pre ++ post
        ∧ pre.count PoolEvent.closeQueue = 1
        ∧ pre.count PoolEvent.joinWorker = 2
        ∧ pre.count PoolEvent.spawnWorker = 0
        ∧ post.count PoolEvent.spawnWorker = 3
        ∧ post.count PoolEvent.joinWorker = 0)
    ∧ ((3 : Int).toNat : Int) = 3
    ∧ (∀ jobs : List Unit, iterateWorker rlWorkerStep (jobs.length + 1) jobs = none)
    ∧ (RestartWorkers_rl ⟨true, 2, 0⟩ 3).state.workersActive = true
    ∧ (RestartWorkers_rl ⟨true, 2, 0⟩ 3).state.genWorkers = 3
    ∧ (RestartWorkers_rl ⟨true, 2, 0⟩ 3).state.clientId = 1
    ∧ ∀ M : Int,
        (RestartWorkers_rl (RestartWorkers_rl ⟨true, 2, 0⟩ 3).state M).events.count
          PoolEvent.joinWorker = 3 :=
  restart_drains_then_spawns ⟨true, 2, 0⟩ 3 rfl (by decide)

/-- C2: the rate-limited restart closes the job queue (the workers' stop
signal, and a signalled worker exits after draining the closed queue),
but its event trace never stops, joins or waits for the producer
goroutine, while it does spawn the next generation's producer; the
producer's own loop keeps sending while its queue is open and panics —
crashing the whole process — if it touches the queue once closed, so no
execution in which the restart completes has torn the old producer
down. -/
theorem producer_not_stopped_before_respawn :
    (∀ (s : RLPoolState) (c : Int), s.workersActive = true →
        (RestartWorkers_rl s c).events.count PoolEvent.closeQueue = 1)
    ∧ (∀ jobs : List Unit,
        iterateWorker rlWorkerStep (List.length jobs + 1) jobs = none)
    ∧ (∀ (s : RLPoolState) (c : Int),
        (RestartWorkers_rl s c).events.count PoolEvent.stopProducer = 0)
    ∧ (∀ (s : RLPoolState) (c : Int), 0 ≤ c →
        (RestartWorkers_rl s c).events.count PoolEvent.spawnProducer = 1)
    ∧ producerStep false = ProducerOutcome.sent
    ∧ producerStep true = ProducerOutcome.panicked := by
  refine ⟨fun s c hA => ?_, rlWorker_exits_after_drain, fun s c => ?_,
    fun s c hc => ?_, rfl, rfl⟩
  · by_cases hc : c < 0 <;>
      simp [RestartWorkers_rl, hc, stopPhase, hA, List.count_cons,
        List.count_append, count_replicate_poolEvent]
  · by_cases hc : c < 0 <;>
      cases hw : s.workersActive <;>
        simp [RestartWorkers_rl, hc, stopPhase, hw, List.count_cons,
          List.count_append, count_replicate_poolEvent]
  · have hcneg : ¬c < 0 := by omega
    cases hw : s.workersActive <;>
      simp [RestartWorkers_rl, hcneg, stopPhase, hw, List.count_cons,
        List.count_append, count_replicate_poolEvent]

/-- C10: in the simple variant the restart emits no stop signal of any
kind before waiting on the join barrier, every branch of the worker's
loop body continues the loop — so a worker, once spawned, runs forever —
and consequently `workerWg.Wait()` can never complete: once a generation
is active, a second `RestartWorkers` blocks forever and never spawns the
new generation. -/
theorem simple_variant_restart_blocks_forever :
    (∀ (s : SimplePoolState) (c : Int),
        (RestartWorkers_simple s c).2.count PoolEvent.closeQueue = 0 ∧
          (RestartWorkers_simple s c).2.count PoolEvent.stopProducer = 0)
    ∧ (∀ (env : SimpleWorkerEnv) (n k : Nat),
        iterateWorker (simpleWorkerStep env) n k = some (k + n))
    ∧ (∀ (env : SimpleWorkerEnv) (k : Nat), ¬simpleJoinCompletes env k) := by
  refine ⟨fun s c => ?_, fun env n k => simpleWorker_runs_forever env n k,
    fun env k => ?_⟩
  · cases hw : s.workersActive <;>
      simp [RestartWorkers_simple, hw, List.count_cons, List.count_append,
        count_replicate_poolEvent]
  · rintro ⟨n, hn⟩
    rw [simpleWorker_runs_forever env n k] at hn
    exact Option.noConfusion hn

end RqstRush
